import Mathlib

/-
Shallow embedding of the filter-and-aggregate logic of
src/Lab1/dashboard.py (a Streamlit dashboard over a table of steel
plant records).  Rows of the pandas dataframe become `PlantRecord`s,
the sidebar widget selections become a `FilterCriteria`, and each
dataframe expression of the script becomes a Lean function on lists.
Capacities are modelled as rationals (the CSV holds decimal numbers);
pandas NaN results (mean of an empty series, min/max of an empty
series) are modelled as `none : Option Rat`.
-/

namespace SteelDashboard

/-- One row of processed_data/steel_plants_cleaned.csv as used by the
script: plant name, owner, country, region, nominal crude steel
capacity (ttpa), plant age, and coordinates. -/
structure PlantRecord where
  plant_name : String
  owner : String
  country : String
  region : String
  capacity : Rat
  plant_age : Rat
  latitude : Rat
  longitude : Rat
deriving DecidableEq, Repr

/-- The sidebar selections of the script: the three multiselect lists
(`regions`, `countries`, `companies`, empty list = no restriction) and
the capacity slider value `capacity_range = (low, high)`. -/
structure FilterCriteria where
  regions : List String
  countries : List String
  companies : List String
  capacity_range : Rat × Rat
deriving DecidableEq, Repr

/-- The filter block of dashboard.py (lines 71-86):
`filtered_df = df.copy()`, then one `isin` mask per non-empty
multiselect (`if regions: ...`, `if countries: ...`,
`if companies: ...`), then the unconditional capacity-range mask
(`>= capacity_range[0]` and `<= capacity_range[1]`). -/
def filtered_df (df : List PlantRecord) (c : FilterCriteria) : List PlantRecord :=
  let fd := df
  let fd := if c.regions.isEmpty then fd
            else fd.filter (fun r => c.regions.contains r.region)
  let fd := if c.countries.isEmpty then fd
            else fd.filter (fun r => c.countries.contains r.country)
  let fd := if c.companies.isEmpty then fd
            else fd.filter (fun r => c.companies.contains r.owner)
  fd.filter (fun r =>
    decide (c.capacity_range.1 ≤ r.capacity) && decide (r.capacity ≤ c.capacity_range.2))

/-- pandas `Series.sum()` over a numeric column: 0 on the empty series. -/
def series_sum (xs : List Rat) : Rat := xs.foldl (· + ·) 0

/-- pandas `Series.mean()`: sum divided by count; NaN (here `none`) on
the empty series. -/
def series_mean (xs : List Rat) : Option Rat :=
  if xs.isEmpty then none else some (series_sum xs / (xs.length : Rat))

/-- pandas `Series.min()`: NaN (here `none`) on the empty series. -/
def series_min : List Rat → Option Rat
  | [] => none
  | x :: xs => some (xs.foldl min x)

/-- pandas `Series.max()`: NaN (here `none`) on the empty series. -/
def series_max : List Rat → Option Rat
  | [] => none
  | x :: xs => some (xs.foldl max x)

/-- The capacity column `df['Nominal crude steel capacity (ttpa)']`. -/
def capacities (df : List PlantRecord) : List Rat := df.map (·.capacity)

/-- `capacity_min = float(df['Nominal crude steel capacity (ttpa)'].min())`. -/
def capacity_min (df : List PlantRecord) : Option Rat := series_min (capacities df)

/-- `capacity_max = float(df['Nominal crude steel capacity (ttpa)'].max())`. -/
def capacity_max (df : List PlantRecord) : Option Rat := series_max (capacities df)

/-- `total_capacity = filtered_df['Nominal crude steel capacity (ttpa)'].sum()`. -/
def total_capacity (df : List PlantRecord) : Rat := series_sum (capacities df)

/-- `avg_capacity = filtered_df['Nominal crude steel capacity (ttpa)'].mean()`;
NaN on an empty dataframe. -/
def avg_capacity (df : List PlantRecord) : Option Rat := series_mean (capacities df)

/-- `num_countries = filtered_df['Country/Area'].nunique()`: the number
of distinct values of the column. -/
def num_countries (df : List PlantRecord) : Nat := (df.map (·.country)).dedup.length

/-- The conjunction of the four retention conditions of the spec,
as one Bool predicate: each multiselect is empty or contains the
record's value, and the capacity lies in the inclusive range. -/
def criteriaBool (c : FilterCriteria) (r : PlantRecord) : Bool :=
  (c.regions.isEmpty || c.regions.contains r.region) &&
  (c.countries.isEmpty || c.countries.contains r.country) &&
  (c.companies.isEmpty || c.companies.contains r.owner) &&
  (decide (c.capacity_range.1 ≤ r.capacity) && decide (r.capacity ≤ c.capacity_range.2))

/-- The four retention conditions of the spec as a Prop, phrased as in
the spec sentence: each selection list is empty or contains the
record's value, and min <= capacity <= max. -/
def criteriaHolds (c : FilterCriteria) (r : PlantRecord) : Prop :=
  (c.regions = [] ∨ r.region ∈ c.regions) ∧
  (c.countries = [] ∨ r.country ∈ c.countries) ∧
  (c.companies = [] ∨ r.owner ∈ c.companies) ∧
  (c.capacity_range.1 ≤ r.capacity ∧ r.capacity ≤ c.capacity_range.2)

/-- Bridge: the cascade of conditional masks in the script equals one
filter by the conjunction of all four conditions. -/
theorem filtered_df_eq_filter (df : List PlantRecord) (c : FilterCriteria) :
    filtered_df df c = df.filter (criteriaBool c) := by
  unfold filtered_df criteriaBool
  cases hr : c.regions.isEmpty <;> cases hc : c.countries.isEmpty <;>
    cases ho : c.companies.isEmpty <;>
      simp only [Bool.false_eq_true, if_true, if_false, ite_true, ite_false,
        List.filter_filter, Bool.true_or, Bool.true_and] <;>
      exact List.filter_congr fun x hx => by
        simp [Bool.and_assoc, Bool.and_comm, Bool.and_left_comm]

/-- The Bool form and the Prop form of the retention condition agree. -/
theorem criteriaBool_iff (c : FilterCriteria) (r : PlantRecord) :
    criteriaBool c r = true ↔ criteriaHolds c r := by
  simp [criteriaBool, criteriaHolds, List.isEmpty_iff, and_assoc]

/-- C1: a record is in the filtered dataframe iff it is in the input
and all four conditions hold: regions empty or containing its region,
countries empty or containing its country, companies empty or
containing its owner, and capacity within the inclusive slider range. -/
theorem filter_retains_iff (r : PlantRecord) (df : List PlantRecord) (c : FilterCriteria) :
    r ∈ filtered_df df c ↔ r ∈ df ∧ criteriaHolds c r := by
  rw [filtered_df_eq_filter, List.mem_filter, criteriaBool_iff]

/-- A sample record used to instantiate theorems with hypotheses. -/
def rec0 : PlantRecord :=
  { plant_name := "Plant A", owner := "Owner A", country := "Country A",
    region := "Region A", capacity := 100, plant_age := 10,
    latitude := 1, longitude := 2 }

/-- A sample criteria: one selected region, full capacity window. -/
def crit0 : FilterCriteria :=
  { regions := ["Region A"], countries := [], companies := [],
    capacity_range := (0, 200) }

/-- Witness for C1 at a concrete record and criteria. -/
theorem filter_retains_iff_witness : rec0 ∈ filtered_df [rec0] crit0 :=
  (filter_retains_iff rec0 [rec0] crit0).mpr
    ⟨by decide, by unfold criteriaHolds; decide⟩

/-- C7: the filtered dataframe is an order-preserving subsequence of
the input: boolean-mask selection keeps rows as they are and keeps
their relative order. -/
theorem filter_is_sublist (df : List PlantRecord) (c : FilterCriteria) :
    (filtered_df df c).Sublist df := by
  rw [filtered_df_eq_filter]
  exact List.filter_sublist df

theorem foldl_min_le_init (xs : List Rat) (x : Rat) : xs.foldl min x ≤ x := by
  induction xs generalizing x with
  | nil => exact le_refl x
  | cons a t ih => exact le_trans (ih (min x a)) (min_le_left x a)

theorem foldl_min_le_mem (xs : List Rat) (x y : Rat) (hy : y ∈ xs) :
    xs.foldl min x ≤ y := by
  induction xs generalizing x with
  | nil => cases hy
  | cons a t ih =>
    rcases List.mem_cons.mp hy with h | h
    · subst h
      exact le_trans (foldl_min_le_init t (min x y)) (min_le_right x y)
    · exact ih (min x a) h

theorem init_le_foldl_max (xs : List Rat) (x : Rat) : x ≤ xs.foldl max x := by
  induction xs generalizing x with
  | nil => exact le_refl x
  | cons a t ih => exact le_trans (le_max_left x a) (ih (max x a))

theorem mem_le_foldl_max (xs : List Rat) (x y : Rat) (hy : y ∈ xs) :
    y ≤ xs.foldl max x := by
  induction xs generalizing x with
  | nil => cases hy
  | cons a t ih =>
    rcases List.mem_cons.mp hy with h | h
    · subst h
      exact le_trans (le_max_right x y) (init_le_foldl_max t (max x y))
    · exact ih (max x a) h

theorem series_min_le (xs : List Rat) (lo : Rat) (h : series_min xs = some lo) :
    ∀ y ∈ xs, lo ≤ y := by
  cases xs with
  | nil => cases h
  | cons a t =>
    intro y hy
    have hlo : t.foldl min a = lo := by
      simpa [series_min] using h
    rcases List.mem_cons.mp hy with h1 | h1
    · subst h1
      exact hlo ▸ foldl_min_le_init t y
    · exact hlo ▸ foldl_min_le_mem t a y h1

theorem le_series_max (xs : List Rat) (hi : Rat) (h : series_max xs = some hi) :
    ∀ y ∈ xs, y ≤ hi := by
  cases xs with
  | nil => cases h
  | cons a t =>
    intro y hy
    have hhi : t.foldl max a = hi := by
      simpa [series_max] using h
    rcases List.mem_cons.mp hy with h1 | h1
    · subst h1
      exact hhi ▸ init_le_foldl_max t y
    · exact hhi ▸ mem_le_foldl_max t a y h1

/-- C2: with all three multiselects empty and the capacity slider left
at its default (the minimum and maximum observed capacity), the filter
is the identity on the dataset. -/
theorem filter_full_range_identity (df : List PlantRecord) (lo hi : Rat)
    (hmin : capacity_min df = some lo) (hmax : capacity_max df = some hi) :
    filtered_df df
      { regions := [], countries := [], companies := [],
        capacity_range := (lo, hi) } = df := by
  rw [filtered_df_eq_filter]
  apply List.filter_eq_self.mpr
  intro r hr
  have h1 : lo ≤ r.capacity :=
    series_min_le (capacities df) lo hmin r.capacity
      (List.mem_map_of_mem (fun p => p.capacity) hr)
  have h2 : r.capacity ≤ hi :=
    le_series_max (capacities df) hi hmax r.capacity
      (List.mem_map_of_mem (fun p => p.capacity) hr)
  simp [criteriaBool, h1, h2]

/-- A second sample record, with a smaller capacity than rec0. -/
def recB : PlantRecord :=
  { plant_name := "Plant B", owner := "Owner B", country := "Country B",
    region := "Region B", capacity := 40, plant_age := 20,
    latitude := 3, longitude := 4 }

/-- Witness for C2 on a concrete two-record dataset. -/
theorem filter_full_range_identity_witness :
    filtered_df [rec0, recB]
      { regions := [], countries := [], companies := [],
        capacity_range := (40, 100) } = [rec0, recB] :=
  filter_full_range_identity [rec0, recB] 40 100 (by decide) (by decide)

/-- C4 counterexample: on an empty dataframe the script's average
capacity is pandas NaN (modelled as none), not the value 0 the claim
requires. -/
theorem avg_capacity_empty_not_zero :
    avg_capacity ([] : List PlantRecord) ≠ some 0 := by
  simp [avg_capacity, series_mean, capacities]

/-- C4 amended: averageCapacity is totalCapacity divided by the count
when the dataframe is non-empty; on the empty dataframe count,
totalCapacity and distinctCountries are 0 but averageCapacity is NaN
(none), and no error is signalled. -/
theorem summary_metrics_amended (df : List PlantRecord) :
    (df ≠ [] → avg_capacity df = some (total_capacity df / (df.length : Rat))) ∧
    avg_capacity ([] : List PlantRecord) = none ∧
    total_capacity ([] : List PlantRecord) = 0 ∧
    num_countries ([] : List PlantRecord) = 0 ∧
    ([] : List PlantRecord).length = 0 := by
  refine ⟨fun h => ?_, rfl, rfl, rfl, rfl⟩
  simp [avg_capacity, series_mean, total_capacity, capacities,
    List.isEmpty_iff, h]

/-- Witness for C4's amended statement on a one-record dataframe. -/
theorem summary_metrics_amended_witness :
    avg_capacity [rec0] =
      some (total_capacity [rec0] / (([rec0] : List PlantRecord).length : Rat)) :=
  (summary_metrics_amended [rec0]).1 (by decide)

/-- Criteria whose capacity window is inverted (min 1 > max 0). -/
def badCrit : FilterCriteria :=
  { regions := [], countries := [], companies := [], capacity_range := (1, 0) }

/-- A record with a negative capacity value. -/
def recNeg : PlantRecord :=
  { plant_name := "Plant N", owner := "Owner N", country := "Country N",
    region := "Region N", capacity := -5, plant_age := 1,
    latitude := 0, longitude := 0 }

/-- Wide-open criteria whose capacity window admits negative values. -/
def openCrit : FilterCriteria :=
  { regions := [], countries := [], companies := [],
    capacity_range := (-10, 10) }

/-- C6 counterexample: an inverted capacity range produces the
ordinary empty result rather than an error, and a record with
negative capacity is retained unchanged; the script contains no
InvalidArgument condition at all. -/
theorem no_invalid_argument_counterexample :
    filtered_df [rec0] badCrit = [] ∧
    filtered_df [recNeg] openCrit = [recNeg] := by
  constructor <;> decide

/-- C6 amended: the script validates nothing: a capacity range with
min > max silently yields the empty result (never an error), and
negative capacities are processed like any other value; the category
keys are fixed string literals, so no unknown-key case can arise. -/
theorem malformed_range_silently_empty (df : List PlantRecord) (c : FilterCriteria)
    (h : c.capacity_range.2 < c.capacity_range.1) :
    filtered_df df c = [] := by
  rw [filtered_df_eq_filter]
  apply List.filter_eq_nil_iff.mpr
  intro r hr hb
  rcases (criteriaBool_iff c r).mp hb with ⟨-, -, -, h1, h2⟩
  exact absurd (le_trans h1 h2) (not_le.mpr h)

/-- Witness for C6's amended statement at a concrete input. -/
theorem malformed_range_silently_empty_witness :
    filtered_df [recB] badCrit = [] :=
  malformed_range_silently_empty [recB] badCrit (by decide)

theorem foldl_add_eq (xs : List Rat) (a : Rat) : xs.foldl (· + ·) a = a + xs.sum := by
  induction xs generalizing a with
  | nil => simp
  | cons x t ih =>
    rw [List.foldl_cons, ih (a + x), List.sum_cons]
    ring

theorem series_sum_eq_sum (xs : List Rat) : series_sum xs = xs.sum := by
  simp [series_sum, foldl_add_eq]

/-- The group keys produced by pandas `groupby` with its default
`sort=True`: the distinct values of the column, in ascending order. -/
def sorted_keys (xs : List String) : List String :=
  xs.dedup.mergeSort (fun a b => decide (a ≤ b))

/-- The summed capacity of the group of records whose key equals k
(one cell of `groupby(col)['Nominal crude steel capacity (ttpa)'].sum()`). -/
def group_sum_capacity (key : PlantRecord → String) (df : List PlantRecord)
    (k : String) : Rat :=
  series_sum ((df.filter (fun r => decide (key r = k))).map (·.capacity))

/-- `filtered_df.groupby(col)['Nominal crude steel capacity (ttpa)'].sum()`
as an association list from group key to summed capacity, keys in the
sorted order pandas produces. -/
def groupSums (key : PlantRecord → String) (df : List PlantRecord) :
    List (String × Rat) :=
  (sorted_keys (df.map key)).map (fun k => (k, group_sum_capacity key df k))

/-- `region_capacity = filtered_df.groupby('Region')[cap].sum().reset_index()`. -/
def region_capacity (df : List PlantRecord) : List (String × Rat) :=
  groupSums (fun r => r.region) df

theorem sum_if_single (K : List String) (a : String) (c : Rat)
    (hnd : K.Nodup) (ha : a ∈ K) :
    (K.map (fun k => if a = k then c else 0)).sum = c := by
  induction K with
  | nil => cases ha
  | cons b t ih =>
    have hnd' : t.Nodup := (List.nodup_cons.mp hnd).2
    rcases List.mem_cons.mp ha with h | h
    · subst h
      have hnot : a ∉ t := (List.nodup_cons.mp hnd).1
      have hz : (t.map (fun k => if a = k then c else 0)).sum = 0 := by
        apply List.sum_eq_zero
        intro x hx
        rcases List.mem_map.mp hx with ⟨k, hk, rfl⟩
        have hne : a ≠ k := fun e => hnot (e ▸ hk)
        simp [hne]
      simp [hz]
    · have hne : a ≠ b := by
        intro e
        exact (List.nodup_cons.mp hnd).1 (e ▸ h)
      simp [hne, ih hnd' h]

theorem sum_groups_eq_total (key : PlantRecord → String) (K : List String)
    (hnd : K.Nodup) (df : List PlantRecord)
    (hcov : ∀ r ∈ df, key r ∈ K) :
    (K.map (fun k =>
        ((df.filter (fun r => decide (key r = k))).map (·.capacity)).sum)).sum
      = (df.map (·.capacity)).sum := by
  induction df with
  | nil => simp
  | cons r rest ih =>
    have hr : key r ∈ K := hcov r (List.mem_cons_self r rest)
    have hrest : ∀ x ∈ rest, key x ∈ K :=
      fun x hx => hcov x (List.mem_cons_of_mem r hx)
    have hsplit : ∀ k : String,
        ((List.filter (fun x => decide (key x = k)) (r :: rest)).map (·.capacity)).sum
          = (if key r = k then r.capacity else 0)
            + ((List.filter (fun x => decide (key x = k)) rest).map (·.capacity)).sum := by
      intro k
      by_cases h : key r = k
      · simp [List.filter_cons, h]
      · simp [List.filter_cons, h]
    calc (K.map (fun k =>
            ((List.filter (fun x => decide (key x = k)) (r :: rest)).map (·.capacity)).sum)).sum
        = (K.map (fun k => (if key r = k then r.capacity else 0)
            + ((List.filter (fun x => decide (key x = k)) rest).map (·.capacity)).sum)).sum := by
          exact congrArg List.sum (List.map_congr_left (fun k hk => hsplit k))
      _ = (K.map (fun k => if key r = k then r.capacity else 0)).sum
            + (K.map (fun k =>
                ((List.filter (fun x => decide (key x = k)) rest).map (·.capacity)).sum)).sum :=
          List.sum_map_add
      _ = r.capacity + (rest.map (·.capacity)).sum := by
          rw [sum_if_single K (key r) r.capacity hnd hr, ih hrest]
      _ = ((r :: rest).map (·.capacity)).sum := by simp

/-- C5: conservation law: the capacity totals of the groups of
`groupSums` add up to the capacity total of the whole input, for any
category key (in the script: Region and Owner). -/
theorem groupSums_conservation (key : PlantRecord → String) (df : List PlantRecord) :
    series_sum ((groupSums key df).map Prod.snd) = total_capacity df := by
  have hnd : (sorted_keys (df.map key)).Nodup :=
    (List.mergeSort_perm ((df.map key).dedup) _).symm.nodup (List.nodup_dedup _)
  have hcov : ∀ r ∈ df, key r ∈ sorted_keys (df.map key) := by
    intro r hr
    exact (List.mergeSort_perm ((df.map key).dedup) _).mem_iff.mpr
      (List.mem_dedup.mpr (List.mem_map_of_mem key hr))
  simp only [groupSums, total_capacity, group_sum_capacity, capacities,
    List.map_map, Function.comp, series_sum_eq_sum]
  exact sum_groups_eq_total key _ hnd df hcov

/-- pandas `Series.value_counts()` before its final sort step: the
hash pass yields each distinct value of the column with its count, in
first-seen order.  The subsequent `sort_values(ascending=False)` step
orders by count descending but leaves the order among equal counts
unspecified, so wherever that order matters it is taken as a
parameter. -/
def value_counts (xs : List String) : List (String × Nat) :=
  xs.eraseDups.map (fun k => (k, xs.count k))

/-- What a dashboard session keeps between interactions: the base
dataframe loaded once by load_data and cached; the script never
reassigns or mutates it. -/
structure SessionState where
  df : List PlantRecord
deriving DecidableEq, Repr

/-- Everything one top-to-bottom run of the script derives from the
base dataframe and the widget selections. -/
structure DashboardOutput where
  filtered : List PlantRecord
  total_plants : Nat
  total_cap : Rat
  avg_cap : Option Rat
  countries_repr : Nat
  top_countries : List (String × Nat)
  top_companies : List (String × Nat)
  region_cap : List (String × Rat)
  company_cap : List (String × Rat)
deriving DecidableEq, Repr

/-- One interaction: a full run of the script body over the session's
base dataframe and the current widget selections.  The two reorder
arguments stand for the sort_values steps applied to value_counts and
to the owner-capacity groupby, whose order among tied values pandas
leaves unspecified; every other step is determined.  The run returns
what it displays together with the session state it leaves behind:
the base dataframe is only read (filtered_df starts from df.copy()),
never reassigned. -/
def interact (sortC : List (String × Nat) → List (String × Nat))
    (sortK : List (String × Rat) → List (String × Rat))
    (s : SessionState) (c : FilterCriteria) :
    DashboardOutput × SessionState :=
  let fd := filtered_df s.df c
  (⟨fd, fd.length, total_capacity fd, avg_capacity fd, num_countries fd,
    (sortC (value_counts (fd.map (·.country)))).take 15,
    (sortC (value_counts (fd.map (·.owner)))).take 15,
    region_capacity fd,
    (sortK (groupSums (fun r => r.owner) fd)).take 10⟩,
   s)

/-- C9: every operation of a run is a pure function of the base
dataframe and the criteria, and a run leaves the base dataset
unchanged: the session state after an interaction equals the state
before it, and a later interaction on the resulting state produces
exactly the outputs it would have produced on the original state. -/
theorem interact_preserves_base
    (sortC : List (String × Nat) → List (String × Nat))
    (sortK : List (String × Rat) → List (String × Rat))
    (s : SessionState) (c c2 : FilterCriteria) :
    (interact sortC sortK s c).2 = s ∧
    interact sortC sortK (interact sortC sortK s c).2 c2
      = interact sortC sortK s c2 :=
  ⟨rfl, rfl⟩

/-- The four restriction passes of the filter block, indexed in the
order the script applies them: 0 region, 1 country, 2 owner, 3
capacity range.  Each pass is exactly the script's: the three isin
passes are skipped when their selection is empty, the capacity pass
is unconditional. -/
def applyRestriction (c : FilterCriteria) (i : Fin 4)
    (df : List PlantRecord) : List PlantRecord :=
  match i.val with
  | 0 => if c.regions.isEmpty then df
         else df.filter (fun r => c.regions.contains r.region)
  | 1 => if c.countries.isEmpty then df
         else df.filter (fun r => c.countries.contains r.country)
  | 2 => if c.companies.isEmpty then df
         else df.filter (fun r => c.companies.contains r.owner)
  | _ => df.filter (fun r =>
           decide (c.capacity_range.1 ≤ r.capacity) &&
           decide (r.capacity ≤ c.capacity_range.2))

/-- The retention condition of one restriction pass on one record. -/
def restrictionBool (c : FilterCriteria) (i : Fin 4) (r : PlantRecord) : Bool :=
  match i.val with
  | 0 => c.regions.isEmpty || c.regions.contains r.region
  | 1 => c.countries.isEmpty || c.countries.contains r.country
  | 2 => c.companies.isEmpty || c.companies.contains r.owner
  | _ => decide (c.capacity_range.1 ≤ r.capacity) &&
         decide (r.capacity ≤ c.capacity_range.2)

theorem restrictionBool_zero (c : FilterCriteria) (r : PlantRecord) :
    restrictionBool c 0 r = (c.regions.isEmpty || c.regions.contains r.region) := rfl

theorem restrictionBool_one (c : FilterCriteria) (r : PlantRecord) :
    restrictionBool c 1 r = (c.countries.isEmpty || c.countries.contains r.country) := rfl

theorem restrictionBool_two (c : FilterCriteria) (r : PlantRecord) :
    restrictionBool c 2 r = (c.companies.isEmpty || c.companies.contains r.owner) := rfl

theorem restrictionBool_three (c : FilterCriteria) (r : PlantRecord) :
    restrictionBool c 3 r
      = (decide (c.capacity_range.1 ≤ r.capacity) &&
         decide (r.capacity ≤ c.capacity_range.2)) := rfl

theorem applyRestriction_eq_filter (c : FilterCriteria) (i : Fin 4)
    (df : List PlantRecord) :
    applyRestriction c i df = df.filter (restrictionBool c i) := by
  fin_cases i
  · cases he : c.regions.isEmpty
    · simp only [applyRestriction, he, Bool.false_eq_true, if_false]
      exact List.filter_congr fun a _ => by
        show c.regions.contains a.region
          = (c.regions.isEmpty || c.regions.contains a.region)
        simp [he]
    · simp only [applyRestriction, he, if_true]
      refine (List.filter_eq_self.mpr fun a _ => ?_).symm
      show (c.regions.isEmpty || c.regions.contains a.region) = true
      simp [he]
  · cases he : c.countries.isEmpty
    · simp only [applyRestriction, he, Bool.false_eq_true, if_false]
      exact List.filter_congr fun a _ => by
        show c.countries.contains a.country
          = (c.countries.isEmpty || c.countries.contains a.country)
        simp [he]
    · simp only [applyRestriction, he, if_true]
      refine (List.filter_eq_self.mpr fun a _ => ?_).symm
      show (c.countries.isEmpty || c.countries.contains a.country) = true
      simp [he]
  · cases he : c.companies.isEmpty
    · simp only [applyRestriction, he, Bool.false_eq_true, if_false]
      exact List.filter_congr fun a _ => by
        show c.companies.contains a.owner
          = (c.companies.isEmpty || c.companies.contains a.owner)
        simp [he]
    · simp only [applyRestriction, he, if_true]
      refine (List.filter_eq_self.mpr fun a _ => ?_).symm
      show (c.companies.isEmpty || c.companies.contains a.owner) = true
      simp [he]
  · rfl

/-- Applying a sequence of restriction passes left to right. -/
def applyRestrictions (c : FilterCriteria) (order : List (Fin 4))
    (df : List PlantRecord) : List PlantRecord :=
  order.foldl (fun l i => applyRestriction c i l) df

theorem applyRestrictions_eq_filter (c : FilterCriteria) (order : List (Fin 4))
    (df : List PlantRecord) :
    applyRestrictions c order df
      = df.filter (fun r => order.all (fun i => restrictionBool c i r)) := by
  induction order generalizing df with
  | nil => simp [applyRestrictions]
  | cons i t ih =>
    show applyRestrictions c t (applyRestriction c i df) = _
    rw [ih, applyRestriction_eq_filter, List.filter_filter]
    exact List.filter_congr fun x hx => by
      simp [List.all_cons, Bool.and_comm]

theorem perm_all_eq {α : Type} {l l2 : List α} (h : l.Perm l2) (f : α → Bool) :
    l.all f = l2.all f := by
  induction h with
  | nil => rfl
  | cons a h ih => simp [List.all_cons, ih]
  | swap a b l => simp [List.all_cons, Bool.and_left_comm]
  | trans h1 h2 ih1 ih2 => rw [ih1, ih2]

/-- C10: applying the region, country, owner and capacity-range
restriction passes in any order yields the same list as the script's
fixed order, i.e. exactly filtered_df. -/
theorem filter_order_irrelevant (df : List PlantRecord) (c : FilterCriteria)
    (order : List (Fin 4)) (h : order.Perm [0, 1, 2, 3]) :
    applyRestrictions c order df = filtered_df df c := by
  rw [applyRestrictions_eq_filter, filtered_df_eq_filter]
  apply List.filter_congr
  intro x hx
  rw [perm_all_eq h]
  simp [List.all_cons, List.all_nil, criteriaBool, restrictionBool,
    Bool.and_assoc, Bool.and_true]

/-- Witness for C10: a reversed pass order on a concrete dataset. -/
theorem filter_order_irrelevant_witness :
    applyRestrictions crit0 [3, 2, 1, 0] [rec0, recB]
      = filtered_df [rec0, recB] crit0 :=
  filter_order_irrelevant [rec0, recB] crit0 [3, 2, 1, 0] (by decide)

end SteelDashboard
